import Mathlib

/-!
Shallow embedding of the GLIMPSE synthetic transit-spectroscopy data
generator (`apps/web/src/app/api/mast/demo-data/[target]/route.ts`).

Modelling conventions:
* JavaScript numbers on the integer/rational paths (hashing, RNG states,
  grids, masks, clamping) are modelled exactly: `ℤ` with explicit 32-bit
  wrapping for the `|0` / `<<` operations, and `ℚ` for exact decimal
  arithmetic.  All those quantities stay well inside the 2^53 range where
  doubles are exact, so the model is faithful.
* Transcendental float arithmetic (log, cos, sqrt, exp of the noise and
  molecular-bump computation) is idealised over `ℝ`.
* The mutable RNG closure (`seededRandom`) is modelled by explicit state
  passing: `rngStep` is the state update, and a value drawn from state `s`
  is the updated state divided by the modulus, exactly as in the source.
* A separate small model of JavaScript `NaN` propagation (`JSNum`,
  `Option`-valued) is used for the claims whose content is the behaviour
  of `parseInt`/`Math.min`/`Math.max`/loop bounds on a NaN bin size.
-/

namespace Glimpse

/-! ### Deterministic RNG seeding (`hashString`, route.ts lines 20–27) -/

/-- JavaScript `ToInt32` (the `|0` and `<<` wrap): reduce mod 2^32 into the
signed range `[-2^31, 2^31)`. -/
def toInt32 (n : ℤ) : ℤ := (n + 2 ^ 31) % 2 ^ 32 - 2 ^ 31

/-- One iteration of the hash loop:
`hash = (hash << 5) - hash + str.charCodeAt(i); hash |= 0`.
`hash << 5` itself wraps to int32 in JavaScript, hence the inner `toInt32`. -/
def hashStep (h : ℤ) (c : ℕ) : ℤ := toInt32 (toInt32 (h * 32) - h + c)

/-- The hash of a list of UTF-16 code units, with the final `Math.abs`. -/
def hashCodes (cs : List ℕ) : ℤ := |cs.foldl hashStep 0|

/-- `str.charCodeAt` sequence of a string (identical to JavaScript for
strings of basic-multilingual-plane characters, the only ones used here). -/
def charCodes (s : String) : List ℕ := s.data.map Char.toNat

/-- `hashString` from the source: accumulate over the character codes, then
take the absolute value. -/
def hashString (s : String) : ℤ := hashCodes (charCodes s)

/-! ### Linear-congruential RNG (`seededRandom`, route.ts lines 4–9) -/

/-- The state update `seed = (seed * 9301 + 49297) % 233280`. -/
def rngStep (s : ℤ) : ℤ := (s * 9301 + 49297) % 233280

/-- The value returned by one call of the closure: the *updated* seed
divided by the modulus. -/
def rngOut (s : ℤ) : ℚ := (rngStep s : ℚ) / 233280

/-- State after `n` draws. -/
def rngIter (s : ℤ) (n : ℕ) : ℤ := rngStep^[n] s

/-! ### Gaussian sampler (`gaussianRandom`, route.ts lines 12–17) -/

/-- First uniform variate `u1 = rand()` consumed by `gaussianRandom`
started in RNG state `s`. -/
def gaussU1 (s : ℤ) : ℚ := rngOut s

/-- Second uniform variate `u2 = rand()`. -/
def gaussU2 (s : ℤ) : ℚ := rngOut (rngStep s)

/-- The value returned by `gaussianRandom(rand, mean, stdDev)` when the RNG
is in state `s`: `sqrt(-2*log u1) * cos(2*pi*u2) * stdDev + mean`.  There
is no branch on `u1` in the source: the formula is applied unconditionally. -/
noncomputable def gaussianRandomVal (s : ℤ) (mean stdDev : ℝ) : ℝ :=
  Real.sqrt (-2 * Real.log (gaussU1 s)) * Real.cos (2 * Real.pi * (gaussU2 s)) * stdDev + mean

/-! ### Grid builder (route.ts lines 44–56) -/

def nWavelengths : ℕ := 200
def nTimes : ℕ := 100

/-- `wavelengths[i] = 0.6 + (i * (5.3 - 0.6)) / (nWavelengths - 1)`. -/
def wavelength (i : ℕ) : ℚ := 0.6 + (i * (5.3 - 0.6)) / 199

def wavelengths : List ℚ := (List.range nWavelengths).map wavelength

/-- `phase[i] = -0.05 + (i * 0.1) / (nTimes - 1)`. -/
def phase (i : ℕ) : ℚ := -0.05 + (i * 0.1) / 99

def phases : List ℚ := (List.range nTimes).map phase

/-! ### Transit light-curve model (route.ts lines 59–77) -/

def transitDuration : ℚ := 0.03
def ingress : ℚ := 0.005

/-- `transitModel(t, depth)`: 1 outside of transit, linear ingress/egress
ramp, `1 - depth` at the flat bottom.  The phase argument is a grid value
(exact rational); the depth is real (it carries the molecular bumps). -/
noncomputable def transitModel (t : ℚ) (depth : ℝ) : ℝ :=
  let halfDuration := transitDuration / 2
  let absT := |t|
  if absT ≥ halfDuration then 1
  else if absT > halfDuration - ingress then
    let progress : ℚ := (absT - halfDuration + ingress) / ingress
    1 - depth * (1 - (progress : ℝ))
  else 1 - depth

/-! ### Molecular absorption features (route.ts lines 79–119) -/

/-- `molecularEffects`, flattened in `Object.entries` insertion order
(H2O, CO2, CO, CH4); each triple is `(wlMin, wlMax, extraDepth)`. -/
def molecularEffects : List (List (ℚ × ℚ × ℚ)) :=
  [ [(1.35, 1.45, 0.003), (1.8, 2.0, 0.004), (2.7, 3.0, 0.005)],
    [(4.2, 4.4, 0.006)],
    [(4.5, 5.0, 0.004)],
    [(2.2, 2.4, 0.002), (3.3, 3.5, 0.003)] ]

def baseDepth : ℚ := 0.012

/-- The Gaussian bump a feature `(wlMin, wlMax, extraDepth)` adds at
wavelength `wl` when `wlMin ≤ wl ≤ wlMax`:
`extraDepth * exp(-(wl-center)^2 / (2*(width/2)^2))` with
`center = (wlMin+wlMax)/2`, `width = (wlMax-wlMin)/2`. -/
noncomputable def bump (f : ℚ × ℚ × ℚ) (wl : ℚ) : ℝ :=
  let center := (f.1 + f.2.1) / 2
  let width := (f.2.1 - f.1) / 2
  ((f.2.2 : ℝ)) * Real.exp (-((wl : ℝ) - (center : ℝ)) ^ 2 / (2 * ((width : ℝ) / 2) ^ 2))

/-- One step of the inner feature loop: add the bump when the wavelength
lies inside the feature's interval. -/
noncomputable def featureStep (wl : ℚ) (d : ℝ) (f : ℚ × ℚ × ℚ) : ℝ :=
  if f.1 ≤ wl ∧ wl ≤ f.2.1 then d + bump f wl else d

/-- The per-wavelength depth: start from `baseDepth` and run the nested
loops over bands and features (route.ts lines 106–119). -/
noncomputable def depthAt (wl : ℚ) : ℝ :=
  molecularEffects.foldl (fun d feats => feats.foldl (featureStep wl) d) (baseDepth : ℝ)

/-! ### Flux cube synthesis (route.ts lines 96–128)

The loops run `j` (wavelength) outer, `i` (time) inner, and each
`gaussianRandom` call consumes two draws, so entry `flux[i][j]` is
computed with the RNG in state `rngIter s0 (2*(j*100+i))` where `s0` is
the initial seed. -/

/-- `flux[i][j] = transitModel(phase[i], depth_j) + gaussianRandom(rand, 0, 0.0005)`. -/
noncomputable def fluxEntry (s0 : ℤ) (i j : ℕ) : ℝ :=
  transitModel (phase i) (depthAt (wavelength j)) +
    gaussianRandomVal (rngIter s0 (2 * (j * nTimes + i))) 0 0.0005

/-- `transitDepthRaw[j] = depth_j * 1e6` (route.ts line 127). -/
noncomputable def transitDepthRaw (j : ℕ) : ℝ := depthAt (wavelength j) * 1e6

/-! ### Transmission spectrum estimator (route.ts lines 131–167) -/

/-- `inTransitMask[i] = |phase[i]| < transitDuration / 2`. -/
def inTransitMask (i : ℕ) : Bool := |phase i| < transitDuration / 2

/-- `outTransitMask[i] = |phase[i]| > transitDuration / 2 + 0.01`. -/
def outTransitMask (i : ℕ) : Bool := |phase i| > transitDuration / 2 + 0.01

/-- The loop `for i { if (mask[i]) sum += f i }` over the `nTimes` samples. -/
noncomputable def maskSum (mask : ℕ → Bool) (f : ℕ → ℝ) : ℝ :=
  (List.range nTimes).foldl (fun a i => if mask i then a + f i else a) 0

/-- The loop accumulating `f i * f i` over masked samples. -/
noncomputable def maskSqSum (mask : ℕ → Bool) (f : ℕ → ℝ) : ℝ :=
  (List.range nTimes).foldl (fun a i => if mask i then a + f i * f i else a) 0

/-- The loop counting masked samples. -/
def maskCount (mask : ℕ → Bool) : ℕ :=
  (List.range nTimes).foldl (fun a i => if mask i then a + 1 else a) 0

/-- `inMean = inSum / inCount` for an arbitrary mask. -/
noncomputable def maskMean (mask : ℕ → Bool) (f : ℕ → ℝ) : ℝ :=
  maskSum mask f / maskCount mask

/-- `inStd = sqrt(inSqSum / inCount - inMean * inMean)`. -/
noncomputable def maskStd (mask : ℕ → Bool) (f : ℕ → ℝ) : ℝ :=
  Real.sqrt (maskSqSum mask f / maskCount mask - maskMean mask f * maskMean mask f)

/-- The per-channel body of the estimator loop (route.ts lines 139–167),
generic in the two masks: it unconditionally divides by the counts and
returns the pair (depth in ppm, depth error in ppm).  There is no branch
for empty masks anywhere. -/
noncomputable def channelStats (inM outM : ℕ → Bool) (f : ℕ → ℝ) : ℝ × ℝ :=
  let inMean := maskMean inM f
  let outMean := maskMean outM f
  let inStd := maskStd inM f
  let outStd := maskStd outM f
  ((1 - inMean / outMean) * 1e6,
   Real.sqrt (inStd * inStd + outStd * outStd) / outMean * 1e6)

/-- `transitDepth[j]`. -/
noncomputable def transitDepthAt (s0 : ℤ) (j : ℕ) : ℝ :=
  (channelStats inTransitMask outTransitMask (fun i => fluxEntry s0 i j)).1

/-- `transitDepthErr[j]`. -/
noncomputable def transitDepthErrAt (s0 : ℤ) (j : ℕ) : ℝ :=
  (channelStats inTransitMask outTransitMask (fun i => fluxEntry s0 i j)).2

/-! ### Spectral binner (route.ts lines 170–203) -/

/-- `nBins = Math.floor(nWavelengths / binSize)`. -/
def nBins (B : ℕ) : ℕ := nWavelengths / B

/-- `wavelengthsBinned[b] = (Σ_{k<B} wavelengths[b*B+k]) / B`. -/
def wavelengthsBinned (B : ℕ) : List ℚ :=
  (List.range (nBins B)).map (fun b =>
    ((List.range B).foldl (fun a k => a + wavelength (b * B + k)) 0) / B)

/-- `transitDepthBinned[b] = (Σ_{k<B} transitDepth[b*B+k]) / B`. -/
noncomputable def transitDepthBinned (s0 : ℤ) (B : ℕ) : List ℝ :=
  (List.range (nBins B)).map (fun b =>
    ((List.range B).foldl (fun a k => a + transitDepthAt s0 (b * B + k)) 0) / B)

/-- `transitDepthErrBinned[b] = (Σ_{k<B} transitDepthErr[b*B+k]) / B / sqrt(B)`. -/
noncomputable def transitDepthErrBinned (s0 : ℤ) (B : ℕ) : List ℝ :=
  (List.range (nBins B)).map (fun b =>
    ((List.range B).foldl (fun a k => a + transitDepthErrAt s0 (b * B + k)) 0) / B
      / Real.sqrt B)

/-- The value pushed as `fluxBinned[i][b]`. -/
noncomputable def fluxBinnedAt (s0 : ℤ) (B : ℕ) (i b : ℕ) : ℝ :=
  ((List.range B).foldl (fun a k => a + fluxEntry s0 i (b * B + k)) 0) / B

/-- Row `i` of the binned flux cube. -/
noncomputable def fluxBinnedRow (s0 : ℤ) (B : ℕ) (i : ℕ) : List ℝ :=
  (List.range (nBins B)).map (fluxBinnedAt s0 B i)

/-- The binned flux cube, time-major. -/
noncomputable def fluxBinned (s0 : ℤ) (B : ℕ) : List (List ℝ) :=
  (List.range nTimes).map (fluxBinnedRow s0 B)

/-! ### Light-curve aggregation (route.ts lines 206–213) -/

/-- `lightcurveFlux[i] = (Σ_{j<nBins} fluxBinned[i][j]) / nBins`. -/
noncomputable def lightcurveFluxAt (s0 : ℤ) (B : ℕ) (i : ℕ) : ℝ :=
  ((List.range (nBins B)).foldl (fun a b => a + fluxBinnedAt s0 B i b) 0) / (nBins B)

noncomputable def lightcurveFlux (s0 : ℤ) (B : ℕ) : List ℝ :=
  (List.range nTimes).map (lightcurveFluxAt s0 B)

/-! ### Whole-response assembly (route.ts lines 29–42 and 215–236) -/

/-- `binSize = Math.min(100, Math.max(5, parsed))` for an integer-parsing
query value. -/
def binSizeClamped (n : ℤ) : ℤ := min 100 (max 5 n)

/-- The numeric payload of the JSON response (the echoed `target` string
and the constant instrument labels aside). -/
structure DemoData where
  wavelengths : List ℚ
  phase : List ℚ
  flux : List (List ℝ)
  tsWavelengths : List ℚ
  tsDepthPpm : List ℝ
  tsDepthErrPpm : List ℝ
  lcPhase : List ℚ
  lcFlux : List ℝ
  wavelengthRange : ℚ × ℚ
  nIntegrations : ℕ

/-- The response computed from a seed and the (already clamped) bin size. -/
noncomputable def generateFromSeed (s0 : ℤ) (B : ℕ) : DemoData where
  wavelengths := wavelengthsBinned B
  phase := phases
  flux := fluxBinned s0 B
  tsWavelengths := wavelengthsBinned B
  tsDepthPpm := transitDepthBinned s0 B
  tsDepthErrPpm := transitDepthErrBinned s0 B
  lcPhase := phases
  lcFlux := lightcurveFlux s0 B
  wavelengthRange := (wavelength 0, wavelength (nWavelengths - 1))
  nIntegrations := nTimes

/-- The GET handler on a parseable `bin_size`: seed from the target name,
clamp the bin size, run the pipeline. -/
noncomputable def generate (target : String) (bin : ℤ) : DemoData :=
  generateFromSeed (hashString target) (binSizeClamped bin).toNat

/-! ### JavaScript NaN model for the bin-size path

`parseInt` of a non-numeric string yields `NaN`, which then flows through
`Math.max` / `Math.min` / `Math.floor`, loop bounds and a final division.
`JSNum` models a JavaScript number on this path: `none` is `NaN`, `some q`
an (exactly representable) finite value. -/

def JSNum : Type := Option ℚ

/-- `Math.max`: `NaN` if either argument is `NaN`. -/
def jsMax (a b : JSNum) : JSNum :=
  match a, b with
  | some x, some y => some (max x y)
  | _, _ => none

/-- `Math.min`: `NaN` if either argument is `NaN`. -/
def jsMin (a b : JSNum) : JSNum :=
  match a, b with
  | some x, some y => some (min x y)
  | _, _ => none

/-- Division: `NaN` if either operand is `NaN`.  (Division by a finite 0,
which would give `±Infinity` in JavaScript, never occurs on the modelled
path; it is conservatively mapped to `none`.) -/
def jsDiv (a b : JSNum) : JSNum :=
  match a, b with
  | some x, some y => if y = 0 then none else some (x / y)
  | _, _ => none

/-- Division of a real accumulator by a `JSNum` (the final
`sum / nBins` of the light-curve loop). -/
noncomputable def jsDivR (x : ℝ) (b : JSNum) : Option ℝ :=
  match b with
  | some y => if y = 0 then none else some (x / (y : ℝ))
  | none => none

/-- `Math.floor`; `Math.floor(NaN) = NaN`. -/
def jsFloor (a : JSNum) : JSNum :=
  match a with
  | some x => some (⌊x⌋ : ℚ)
  | none => none

/-- Number of iterations of `for (let b = 0; b < n; b++)`: the comparison
`b < NaN` is false, so a `NaN` bound runs the loop zero times. -/
def jsIterations (n : JSNum) : ℕ :=
  match n with
  | some q => (⌈q⌉).toNat
  | none => 0

/-- A counted `push` loop: `for (let b = 0; b < n; b++) out.push(body b)`. -/
def jsLoop {α : Type} (n : JSNum) (body : ℕ → α) : List α :=
  (List.range (jsIterations n)).map body

/-- The characters JavaScript strips in front of a `parseInt` argument:
ECMAScript WhiteSpace (TAB, VT, FF, SP, NBSP, BOM and the Unicode
space-separator category) and LineTerminator (LF, CR, LS, PS). -/
def jsWhitespace (c : Char) : Bool :=
  c = '\t' ∨ c = '\n' ∨ c.toNat = 0x0B ∨ c.toNat = 0x0C ∨ c = '\r' ∨ c = ' ' ∨
  c.toNat = 0xA0 ∨ c.toNat = 0x1680 ∨ (0x2000 ≤ c.toNat ∧ c.toNat ≤ 0x200A) ∨
  c.toNat = 0x2028 ∨ c.toNat = 0x2029 ∨ c.toNat = 0x202F ∨ c.toNat = 0x205F ∨
  c.toNat = 0x3000 ∨ c.toNat = 0xFEFF

/-- The value of a hexadecimal digit, `none` for any other character. -/
def hexDigitVal (c : Char) : Option ℕ :=
  if '0' ≤ c ∧ c ≤ '9' then some (c.toNat - 48)
  else if 'a' ≤ c ∧ c ≤ 'f' then some (c.toNat - 87)
  else if 'A' ≤ c ∧ c ≤ 'F' then some (c.toNat - 55)
  else none

/-- JavaScript radix-less `parseInt(s)` as the source calls it
(route.ts line 37): strip leading whitespace, one optional sign, then
either a `0x`/`0X` prefix followed by the longest run of hexadecimal
digits (`parseInt("0x") = NaN`), or the longest run of decimal digits;
`NaN` (`none`) when the digit run is empty.  The value is kept exact
(JavaScript would round magnitudes above 2^53, which the downstream clamp
to `[5,100]` makes immaterial). -/
def jsParseInt (s : String) : Option ℤ :=
  let cs := s.data.dropWhile jsWhitespace
  let sgncs : ℤ × List Char :=
    match cs with
    | '-' :: r => (-1, r)
    | '+' :: r => (1, r)
    | r => (1, r)
  let hex : Bool :=
    match sgncs.2 with
    | '0' :: x :: _ => x = 'x' ∨ x = 'X'
    | _ => false
  if hex then
    let ds := (sgncs.2.drop 2).takeWhile (fun c => (hexDigitVal c).isSome)
    if ds.isEmpty then none
    else
      some (sgncs.1 *
        ((ds.foldl (fun a c => a * 16 + (hexDigitVal c).getD 0) 0 : ℕ) : ℤ))
  else
    let ds := sgncs.2.takeWhile Char.isDigit
    if ds.isEmpty then none
    else some (sgncs.1 * ((ds.foldl (fun a c => a * 10 + (c.toNat - 48)) 0 : ℕ) : ℤ))

/-- The string `parseInt` actually receives:
`searchParams.get("bin_size") || "20"` — the empty string is falsy in
JavaScript, so only a non-empty parameter reaches `parseInt` itself. -/
def binSizeParam (p : String) : String := if p = "" then "20" else p

/-- The effective bin size
`Math.min(100, Math.max(5, parseInt(p || "20")))` for a present `bin_size`
parameter `p`. -/
def effBinSize (p : String) : JSNum :=
  jsMin (some 100) (jsMax (some 5) ((jsParseInt (binSizeParam p)).map (fun z => (z : ℚ))))

/-- `nBins = Math.floor(nWavelengths / binSize)` in the NaN model. -/
def nBinsJS (p : String) : JSNum := jsFloor (jsDiv (some 200) (effBinSize p))

/-- The binned-wavelength list in the NaN model: the outer loop is bounded
by `nBins`, the inner sum by `binSize`. -/
def wavelengthsBinnedJS (p : String) : List JSNum :=
  jsLoop (nBinsJS p) (fun b =>
    jsDiv
      (some ((List.range (jsIterations (effBinSize p))).foldl
        (fun a k => a + wavelength (b * jsIterations (effBinSize p) + k)) 0))
      (effBinSize p))

/-- Row `i` of the binned flux cube in the NaN model. -/
noncomputable def fluxBinnedRowJS (s0 : ℤ) (p : String) (i : ℕ) : List (Option ℝ) :=
  jsLoop (nBinsJS p) (fun b =>
    jsDivR
      ((List.range (jsIterations (effBinSize p))).foldl
        (fun a k => a + fluxEntry s0 i (b * jsIterations (effBinSize p) + k)) 0)
      (effBinSize p))

/-- The binned transmission-spectrum depths in the NaN model. -/
noncomputable def transitDepthBinnedJS (s0 : ℤ) (p : String) : List (Option ℝ) :=
  jsLoop (nBinsJS p) (fun b =>
    jsDivR
      ((List.range (jsIterations (effBinSize p))).foldl
        (fun a k => a + transitDepthAt s0 (b * jsIterations (effBinSize p) + k)) 0)
      (effBinSize p))

/-- The binned transmission-spectrum depth errors in the NaN model. -/
noncomputable def transitDepthErrBinnedJS (s0 : ℤ) (p : String) : List (Option ℝ) :=
  jsLoop (nBinsJS p) (fun b =>
    jsDivR
      ((List.range (jsIterations (effBinSize p))).foldl
        (fun a k => a + transitDepthErrAt s0 (b * jsIterations (effBinSize p) + k)) 0)
      (effBinSize p))

/-- `lightcurveFlux[i]` in the NaN model: the sum over the (empty, when
`nBins` is `NaN`) bin loop divided by `nBins`. -/
noncomputable def lightcurveFluxJS (s0 : ℤ) (p : String) : List (Option ℝ) :=
  (List.range nTimes).map (fun i =>
    jsDivR
      ((jsLoop (nBinsJS p) (fun b =>
          ((List.range (jsIterations (effBinSize p))).foldl
            (fun a k => a + fluxEntry s0 i (b * jsIterations (effBinSize p) + k)) 0))).foldl
        (fun a x => a + x) 0)
      (nBinsJS p))

/-! ### Spec-side estimator with emptiness detection

Modelled from the spec (section 4.7): "if either set is empty … this must
be detected and reported as a configuration error, not silently produce
NaN/Infinity."  No such detection exists in the source; this definition is
the comparison point for that refinement claim. -/

/-- The per-channel estimator as the spec demands it: report a
configuration error when either sample set is empty, otherwise the same
statistics as the source. -/
noncomputable def channelStatsSpec (inM outM : ℕ → Bool) (f : ℕ → ℝ) :
    Except String (ℝ × ℝ) :=
  if maskCount inM = 0 ∨ maskCount outM = 0 then
    Except.error "configuration error: empty sample set"
  else
    Except.ok (channelStats inM outM f)

/-! ### Claim-side definitions (worded as the claims word them)

These restate the claims' formulas over `Finset` sums; the theorems below
compare them with the loop-accumulation definitions taken from the source. -/

/-- The features of all bands, in traversal order. -/
def allFeatures : List (ℚ × ℚ × ℚ) := molecularEffects.flatten

/-- The in-transit index set, as claim C4 words it. -/
def inSet : Finset ℕ :=
  (Finset.range nTimes).filter (fun i => |phase i| < transitDuration / 2)

/-- The out-of-transit index set, as claim C4 words it. -/
def outSet : Finset ℕ :=
  (Finset.range nTimes).filter (fun i => |phase i| > transitDuration / 2 + 0.01)

/-- Population mean over an index set. -/
noncomputable def specMean (s : Finset ℕ) (f : ℕ → ℝ) : ℝ := (∑ i in s, f i) / s.card

/-- Population standard deviation `sqrt(E[x^2] - E[x]^2)` over an index set. -/
noncomputable def specStd (s : Finset ℕ) (f : ℕ → ℝ) : ℝ :=
  Real.sqrt ((∑ i in s, f i ^ 2) / s.card - specMean s f ^ 2)

/-! ## Helper lemmas -/

/-- An accumulation loop `for k in range n { a = a + f k }` computes the sum. -/
theorem foldl_add_eq_sum {M : Type} [AddCommMonoid M] (f : ℕ → M) (n : ℕ) :
    (List.range n).foldl (fun a k => a + f k) 0 = ∑ k in Finset.range n, f k := by
  induction n with
  | zero => simp
  | succ n ih =>
    rw [List.range_succ, List.foldl_append, ih, Finset.sum_range_succ]
    rfl

/-- A guarded accumulation loop computes the sum over the filtered range. -/
theorem foldl_ite_add_eq_sum {M : Type} [AddCommMonoid M] (p : ℕ → Bool) (f : ℕ → M)
    (n : ℕ) :
    (List.range n).foldl (fun a k => if p k then a + f k else a) 0 =
      ∑ k in (Finset.range n).filter (fun k => p k), f k := by
  induction n with
  | zero => simp
  | succ n ih =>
    rw [List.range_succ, List.foldl_append, ih, Finset.range_succ, Finset.filter_insert]
    by_cases h : p n
    · rw [if_pos h, Finset.sum_insert (by simp)]
      show (if p n then _ + f n else _) = _
      rw [if_pos h, add_comm]
    · rw [if_neg h]
      show (if p n then _ + f n else _) = _
      rw [if_neg h]

theorem maskSum_eq (mask : ℕ → Bool) (f : ℕ → ℝ) :
    maskSum mask f = ∑ i in (Finset.range nTimes).filter (fun i => mask i), f i :=
  foldl_ite_add_eq_sum mask f nTimes

theorem maskSqSum_eq (mask : ℕ → Bool) (f : ℕ → ℝ) :
    maskSqSum mask f = ∑ i in (Finset.range nTimes).filter (fun i => mask i), f i ^ 2 := by
  have := foldl_ite_add_eq_sum mask (fun i => f i * f i) nTimes
  simpa [maskSqSum, sq] using this

theorem maskCount_eq (mask : ℕ → Bool) :
    maskCount mask = ((Finset.range nTimes).filter (fun i => mask i)).card := by
  unfold maskCount
  rw [Finset.card_eq_sum_ones]
  exact foldl_ite_add_eq_sum mask (fun _ => (1 : ℕ)) nTimes

/-! ## Claim C9: seeding hash and linear-congruential recurrence -/

theorem toInt32_modEq (a : ℤ) : toInt32 a ≡ a [ZMOD (2 ^ 32)] := by
  unfold toInt32
  have h1 : (a + 2 ^ 31) % 2 ^ 32 ≡ a + 2 ^ 31 [ZMOD (2 ^ 32)] :=
    Int.emod_emod_of_dvd _ dvd_rfl
  calc (a + 2 ^ 31) % 2 ^ 32 - 2 ^ 31
      ≡ a + 2 ^ 31 - 2 ^ 31 [ZMOD (2 ^ 32)] := h1.sub_right _
    _ = a := by ring

theorem toInt32_congr {a b : ℤ} (h : a ≡ b [ZMOD (2 ^ 32)]) : toInt32 a = toInt32 b := by
  unfold toInt32
  rw [show (a + 2 ^ 31) % 2 ^ 32 = (b + 2 ^ 31) % 2 ^ 32 from h.add_right _]

theorem hashStep_eq (h : ℤ) (c : ℕ) : hashStep h c = toInt32 (h * 31 + c) := by
  unfold hashStep
  apply toInt32_congr
  calc toInt32 (h * 32) - h + c
      ≡ h * 32 - h + c [ZMOD (2 ^ 32)] := ((toInt32_modEq (h * 32)).sub_right h).add_right c
    _ = h * 31 + c := by ring

/-- C9: the seed hash is the order-sensitive accumulation
`hash = hash * 31 + code` wrapped to the 32-bit signed range, with the
absolute value taken at the end, so every name yields a non-negative seed;
and each RNG call updates the state by
`seed = (seed * 9301 + 49297) % 233280` and returns `seed / 233280`, a
value in `[0, 1)`. -/
theorem hash_and_rng_contract :
    (∀ cs : List ℕ, hashCodes cs = |cs.foldl (fun (h : ℤ) (c : ℕ) => toInt32 (h * 31 + c)) 0|) ∧
    (∀ s : String, 0 ≤ hashString s) ∧
    (∀ s : ℤ, rngStep s = (s * 9301 + 49297) % 233280) ∧
    (∀ s : ℤ, rngOut s = (rngStep s : ℚ) / 233280) ∧
    (∀ s : ℤ, 0 ≤ rngOut s ∧ rngOut s < 1) := by
  refine ⟨fun cs => ?_, fun s => abs_nonneg _, fun s => rfl, fun s => rfl, fun s => ⟨?_, ?_⟩⟩
  · unfold hashCodes
    rw [show hashStep = fun (h : ℤ) (c : ℕ) => toInt32 (h * 31 + c) from
      funext fun h => funext fun c => hashStep_eq h c]
  · unfold rngOut
    have : (0 : ℤ) ≤ rngStep s := Int.emod_nonneg _ (by norm_num)
    positivity
  · unfold rngOut
    rw [div_lt_one (by norm_num)]
    exact_mod_cast Int.emod_lt_of_pos _ (by norm_num : (0:ℤ) < 233280)

/-! ## Claim C8: grid invariants -/

theorem wavelength_strictMono : StrictMono wavelength := by
  intro a b hab
  unfold wavelength
  have h : (a : ℚ) < b := by exact_mod_cast hab
  have : (a : ℚ) * (5.3 - 0.6) < (b : ℚ) * (5.3 - 0.6) := by
    apply mul_lt_mul_of_pos_right h
    norm_num
  linarith

theorem phase_strictMono : StrictMono phase := by
  intro a b hab
  unfold phase
  have h : (a : ℚ) < b := by exact_mod_cast hab
  have : (a : ℚ) * 0.1 < (b : ℚ) * 0.1 := by
    apply mul_lt_mul_of_pos_right h
    norm_num
  linarith

/-- C8: the wavelength grid always has exactly 200 strictly ascending,
evenly spaced points from 0.6 to 5.3, and the phase grid exactly 100
strictly ascending, evenly spaced points from -0.05 to 0.05; both are
closed constants, independent of all input. -/
theorem grid_invariants :
    wavelengths.length = 200 ∧ phases.length = 100 ∧
    wavelength 0 = 0.6 ∧ wavelength 199 = 5.3 ∧
    phase 0 = -0.05 ∧ phase 99 = 0.05 ∧
    List.Pairwise (· < ·) wavelengths ∧ List.Pairwise (· < ·) phases ∧
    (∀ i : ℕ, wavelength (i + 1) - wavelength i = (5.3 - 0.6) / 199) ∧
    (∀ i : ℕ, phase (i + 1) - phase i = 0.1 / 99) := by
  refine ⟨by simp [wavelengths, nWavelengths], by simp [phases, nTimes],
    by norm_num [wavelength], by norm_num [wavelength],
    by norm_num [phase], by norm_num [phase], ?_, ?_, fun i => ?_, fun i => ?_⟩
  · exact (List.pairwise_map.2 ((List.pairwise_lt_range _).imp fun h => wavelength_strictMono h))
  · exact (List.pairwise_map.2 ((List.pairwise_lt_range _).imp fun h => phase_strictMono h))
  · unfold wavelength
    push_cast
    ring
  · unfold phase
    push_cast
    ring

/-! ## Claim C6: transit light-curve shape -/

/-- C6: `transitFlux(0, depth) = 1 - depth` exactly; flux is exactly 1 at or
beyond half the transit duration; within `ingress` of the half-duration the
flux ramps linearly between 1 and `1 - depth`; and the model is symmetric
about phase 0. -/
theorem transit_shape :
    (∀ d : ℝ, transitModel 0 d = 1 - d) ∧
    (∀ (t : ℚ) (d : ℝ), transitDuration / 2 ≤ |t| → transitModel t d = 1) ∧
    (∀ (t : ℚ) (d : ℝ), transitDuration / 2 - ingress < |t| → |t| < transitDuration / 2 →
      transitModel t d =
        1 - d * (1 - (((|t| - transitDuration / 2 + ingress) / ingress : ℚ) : ℝ))) ∧
    (∀ (t : ℚ) (d : ℝ), transitModel (-t) d = transitModel t d) := by
  refine ⟨fun d => ?_, fun t d h => ?_, fun t d h1 h2 => ?_, fun t d => ?_⟩
  · simp only [transitModel]
    norm_num [transitDuration, ingress]
  · simp only [transitModel]
    rw [if_pos h]
  · simp only [transitModel]
    rw [if_neg (not_le.2 h2), if_pos h1]
  · simp only [transitModel, abs_neg]

theorem transit_shape_witness :
    transitModel 1 0 = 1 ∧
    transitModel 0.012 2 =
      1 - 2 * (1 - (((|(0.012 : ℚ)| - transitDuration / 2 + ingress) / ingress : ℚ) : ℝ)) :=
  ⟨transit_shape.2.1 1 0 (by rw [abs_one]; norm_num [transitDuration]),
   transit_shape.2.2.1 0.012 2
     (by rw [abs_of_pos (by norm_num : (0:ℚ) < 0.012)]; norm_num [transitDuration, ingress])
     (by rw [abs_of_pos (by norm_num : (0:ℚ) < 0.012)]; norm_num [transitDuration, ingress])⟩

/-! ## Claim C7: molecular absorption superposition -/

theorem foldl_featureStep (wl : ℚ) (l : List (ℚ × ℚ × ℚ)) (d : ℝ) :
    l.foldl (featureStep wl) d =
      d + (l.map (fun f => if f.1 ≤ wl ∧ wl ≤ f.2.1 then bump f wl else 0)).sum := by
  induction l generalizing d with
  | nil => simp
  | cons f l ih =>
    rw [List.foldl_cons, ih, List.map_cons, List.sum_cons]
    unfold featureStep
    by_cases h : f.1 ≤ wl ∧ wl ≤ f.2.1
    · rw [if_pos h, if_pos h]
      ring
    · rw [if_neg h, if_neg h]
      ring

theorem foldl_bands (wl : ℚ) (ll : List (List (ℚ × ℚ × ℚ))) (d : ℝ) :
    ll.foldl (fun d feats => feats.foldl (featureStep wl) d) d =
      d + (ll.flatten.map (fun f => if f.1 ≤ wl ∧ wl ≤ f.2.1 then bump f wl else 0)).sum := by
  induction ll generalizing d with
  | nil => simp
  | cons feats ll ih =>
    rw [List.foldl_cons, ih, foldl_featureStep, List.flatten_cons, List.map_append,
      List.sum_append]
    ring

/-- C7: the per-wavelength depth is the fixed baseline plus the additive
accumulation of one Gaussian bump for every band range whose interval
contains the wavelength (no capping, no normalisation), and is therefore
always at least the baseline depth. -/
theorem molecular_superposition (wl : ℚ) :
    depthAt wl = (baseDepth : ℝ) +
      (allFeatures.map (fun f => if f.1 ≤ wl ∧ wl ≤ f.2.1 then bump f wl else 0)).sum ∧
    (baseDepth : ℝ) ≤ depthAt wl := by
  have hEq : depthAt wl = (baseDepth : ℝ) +
      (allFeatures.map (fun f => if f.1 ≤ wl ∧ wl ≤ f.2.1 then bump f wl else 0)).sum :=
    foldl_bands wl molecularEffects (baseDepth : ℝ)
  refine ⟨hEq, ?_⟩
  rw [hEq]
  have hnn : ∀ x ∈ allFeatures.map
      (fun f => if f.1 ≤ wl ∧ wl ≤ f.2.1 then bump f wl else 0), (0:ℝ) ≤ x := by
    intro x hx
    obtain ⟨f, hf, rfl⟩ := List.mem_map.1 hx
    have hq : (0:ℚ) ≤ f.2.2 := by
      have hlit : allFeatures =
          [(1.35, 1.45, 0.003), (1.8, 2.0, 0.004), (2.7, 3.0, 0.005), (4.2, 4.4, 0.006),
           (4.5, 5.0, 0.004), (2.2, 2.4, 0.002), (3.3, 3.5, 0.003)] := rfl
      rw [hlit] at hf
      simp only [List.mem_cons, List.not_mem_nil, or_false] at hf
      rcases hf with rfl | rfl | rfl | rfl | rfl | rfl | rfl <;> norm_num
    by_cases h : f.1 ≤ wl ∧ wl ≤ f.2.1
    · rw [if_pos h]
      unfold bump
      exact mul_nonneg (by exact_mod_cast hq) (Real.exp_pos _).le
    · rw [if_neg h]
  linarith [List.sum_nonneg hnn]

/-! ## Claim C4: transmission-spectrum estimator formulas -/

theorem inSet_eq_filter :
    inSet = (Finset.range nTimes).filter (fun i => inTransitMask i) := by
  unfold inSet inTransitMask
  apply Finset.filter_congr
  intro i _
  simp

theorem outSet_eq_filter :
    outSet = (Finset.range nTimes).filter (fun i => outTransitMask i) := by
  unfold outSet outTransitMask
  apply Finset.filter_congr
  intro i _
  simp

theorem transitDepthAt_def (s0 : ℤ) (j : ℕ) :
    transitDepthAt s0 j =
      (1 - maskMean inTransitMask (fun i => fluxEntry s0 i j) /
        maskMean outTransitMask (fun i => fluxEntry s0 i j)) * 1e6 := rfl

theorem transitDepthErrAt_def (s0 : ℤ) (j : ℕ) :
    transitDepthErrAt s0 j =
      Real.sqrt (maskStd inTransitMask (fun i => fluxEntry s0 i j) *
          maskStd inTransitMask (fun i => fluxEntry s0 i j) +
        maskStd outTransitMask (fun i => fluxEntry s0 i j) *
          maskStd outTransitMask (fun i => fluxEntry s0 i j)) /
        maskMean outTransitMask (fun i => fluxEntry s0 i j) * 1e6 := rfl

theorem maskMean_in_eq (f : ℕ → ℝ) : maskMean inTransitMask f = specMean inSet f := by
  unfold maskMean specMean
  rw [maskSum_eq, maskCount_eq, inSet_eq_filter]

theorem maskMean_out_eq (f : ℕ → ℝ) : maskMean outTransitMask f = specMean outSet f := by
  unfold maskMean specMean
  rw [maskSum_eq, maskCount_eq, outSet_eq_filter]

theorem maskStd_in_eq (f : ℕ → ℝ) : maskStd inTransitMask f = specStd inSet f := by
  unfold maskStd specStd
  rw [maskSqSum_eq, maskCount_eq, maskMean_in_eq, inSet_eq_filter]
  congr 1
  ring

theorem maskStd_out_eq (f : ℕ → ℝ) : maskStd outTransitMask f = specStd outSet f := by
  unfold maskStd specStd
  rw [maskSqSum_eq, maskCount_eq, maskMean_out_eq, outSet_eq_filter]
  congr 1
  ring

/-- C4: for every wavelength channel the estimator partitions the time
samples into `|phase| < totalDuration/2` (in transit) and
`|phase| > totalDuration/2 + 0.01` (out of transit) with the gap belonging
to neither, computes population mean and standard deviation
`sqrt(E[x^2]-E[x]^2)` of the flux over each set, and outputs depth
`(1 - inMean/outMean) * 1e6` ppm with uncertainty
`sqrt(inStd^2 + outStd^2) / outMean * 1e6` ppm. -/
theorem estimator_formulas (s0 : ℤ) (j : ℕ) :
    (∀ i, i ∈ inSet ↔ i < nTimes ∧ |phase i| < transitDuration / 2) ∧
    (∀ i, i ∈ outSet ↔ i < nTimes ∧ |phase i| > transitDuration / 2 + 0.01) ∧
    (∀ i, transitDuration / 2 ≤ |phase i| → |phase i| ≤ transitDuration / 2 + 0.01 →
      i ∉ inSet ∧ i ∉ outSet) ∧
    transitDepthAt s0 j =
      (1 - specMean inSet (fun i => fluxEntry s0 i j) /
        specMean outSet (fun i => fluxEntry s0 i j)) * 1e6 ∧
    transitDepthErrAt s0 j =
      Real.sqrt (specStd inSet (fun i => fluxEntry s0 i j) ^ 2 +
          specStd outSet (fun i => fluxEntry s0 i j) ^ 2) /
        specMean outSet (fun i => fluxEntry s0 i j) * 1e6 := by
  refine ⟨fun i => ?_, fun i => ?_, fun i h1 h2 => ⟨?_, ?_⟩, ?_, ?_⟩
  · unfold inSet
    rw [Finset.mem_filter, Finset.mem_range]
  · unfold outSet
    rw [Finset.mem_filter, Finset.mem_range]
  · unfold inSet
    rw [Finset.mem_filter]
    rintro ⟨-, hin⟩
    exact absurd h1 (not_le.2 hin)
  · unfold outSet
    rw [Finset.mem_filter]
    rintro ⟨-, hout⟩
    exact absurd h2 (not_le.2 hout)
  · rw [transitDepthAt_def, maskMean_in_eq, maskMean_out_eq]
  · rw [transitDepthErrAt_def, maskStd_in_eq, maskStd_out_eq, maskMean_out_eq, pow_two, pow_two]

theorem estimator_formulas_witness : 25 ∉ inSet ∧ 25 ∉ outSet :=
  (estimator_formulas 0 0).2.2.1 25
    (by
      rw [show |phase 25| = 49 / 1980 from by
        rw [abs_of_neg (by norm_num [phase])]; norm_num [phase]]
      norm_num [transitDuration])
    (by
      rw [show |phase 25| = 49 / 1980 from by
        rw [abs_of_neg (by norm_num [phase])]; norm_num [phase]]
      norm_num [transitDuration])

/-! ## Claim C5: spectral binner -/

/-- C5: for a bin size in `[5,100]` over the 200 wavelengths, the binner
produces exactly `⌊200/B⌋` bins, each bin's wavelength and depth being the
unweighted mean of its `B` constituents, each bin's depth error that mean
further divided by `sqrt B`, and each binned flux column the per-time mean
of the `B` constituent columns; indices stop at `(200/B)*B ≤ 200`, so
trailing wavelengths are dropped. -/
theorem binner_formulas (B : ℕ) (_h5 : 5 ≤ B) (_h100 : B ≤ 100) :
    (wavelengthsBinned B).length = 200 / B ∧
    nBins B * B ≤ nWavelengths ∧
    wavelengthsBinned B =
      (List.range (200 / B)).map
        (fun b => (∑ k in Finset.range B, wavelength (b * B + k)) / B) ∧
    (∀ s0, transitDepthBinned s0 B =
      (List.range (200 / B)).map
        (fun b => (∑ k in Finset.range B, transitDepthAt s0 (b * B + k)) / B)) ∧
    (∀ s0, transitDepthErrBinned s0 B =
      (List.range (200 / B)).map
        (fun b => ((∑ k in Finset.range B, transitDepthErrAt s0 (b * B + k)) / B) /
          Real.sqrt B)) ∧
    (∀ s0 i, fluxBinnedRow s0 B i =
      (List.range (200 / B)).map
        (fun b => (∑ k in Finset.range B, fluxEntry s0 i (b * B + k)) / B)) ∧
    (∀ s0, (fluxBinned s0 B).length = nTimes) := by
  refine ⟨by simp [wavelengthsBinned, nBins, nWavelengths], Nat.div_mul_le_self 200 B,
    ?_, fun s0 => ?_, fun s0 => ?_, fun s0 i => ?_, fun s0 => by simp [fluxBinned]⟩
  · unfold wavelengthsBinned
    simp only [foldl_add_eq_sum, nBins, nWavelengths]
  · unfold transitDepthBinned
    simp only [foldl_add_eq_sum, nBins, nWavelengths]
  · unfold transitDepthErrBinned
    simp only [foldl_add_eq_sum, nBins, nWavelengths]
  · unfold fluxBinnedRow fluxBinnedAt
    simp only [foldl_add_eq_sum, nBins, nWavelengths]

theorem binner_formulas_witness : (wavelengthsBinned 20).length = 10 :=
  (binner_formulas 20 (by norm_num) (by norm_num)).1

/-! ## Claim C1: determinism of the generation pipeline -/

/-- C1: the whole generated payload is a pure function of the target name's
seed and the bin size — there is no entropy source anywhere in the
pipeline, so two invocations with the same inputs (indeed, with any two
targets of equal seed) produce identical output structures. -/
theorem generation_deterministic (t t' : String) (b : ℤ)
    (h : hashString t = hashString t') : generate t b = generate t' b := by
  unfold generate
  rw [h]

theorem generation_deterministic_witness :
    hashString "Aa" = hashString "BB" ∧ generate "Aa" 20 = generate "BB" 20 :=
  ⟨by decide, generation_deterministic "Aa" "BB" 20 (by decide)⟩

/-! ## Claim C2: the Gaussian sampler is not guarded against `u1 = 0` -/

/-- C2 (refuting the guard): `gaussianRandom` applies
`sqrt(-2*log(u1))*cos(2*pi*u2)` unconditionally, and the reachable seed of
target `"ckbm"` drives the very first uniform variate to exactly 0:
`(3055283 * 9301 + 49297) % 233280 = 0`, so the first noise draw evaluates
`log 0` (`-Infinity` in JavaScript, propagating a non-finite value). -/
theorem gaussian_sampler_unguarded :
    hashString "ckbm" = 3055283 ∧ rngStep 3055283 = 0 ∧
      gaussU1 (hashString "ckbm") = 0 := by
  have h : hashString "ckbm" = 3055283 := by decide
  have h2 : rngStep 3055283 = 0 := by decide
  refine ⟨h, h2, ?_⟩
  unfold gaussU1 rngOut
  rw [h, h2]
  norm_num

/-! ## Claim C3: no detection of empty transit sample sets -/

/-- C3 (counterexample to the claimed detection): on an empty in-transit
mask the spec-side estimator reports a configuration error, while the
source's estimator body performs no emptiness check and still returns a
plain pair of numbers (in JavaScript the division `0/0` would make these
NaN; in this exact model the division-by-zero junk value is 0). -/
theorem estimator_no_empty_detection :
    channelStatsSpec (fun _ => false) (fun _ => true) (fun _ => 1) =
      Except.error "configuration error: empty sample set" ∧
    channelStats (fun _ => false) (fun _ => true) (fun _ => 1) = (1e6, 0) := by
  have hc0 : maskCount (fun _ => false) = 0 := by
    rw [maskCount_eq]
    simp
  have hc1 : maskCount (fun _ => true) = 100 := by
    rw [maskCount_eq]
    simp [nTimes]
  have hs0 : maskSum (fun _ => false) (fun _ => (1:ℝ)) = 0 := by
    rw [maskSum_eq]
    simp
  have hs1 : maskSum (fun _ => true) (fun _ => (1:ℝ)) = 100 := by
    rw [maskSum_eq]
    simp [nTimes]
  have hq0 : maskSqSum (fun _ => false) (fun _ => (1:ℝ)) = 0 := by
    rw [maskSqSum_eq]
    simp
  have hq1 : maskSqSum (fun _ => true) (fun _ => (1:ℝ)) = 100 := by
    rw [maskSqSum_eq]
    simp [nTimes]
  constructor
  · unfold channelStatsSpec
    rw [if_pos (Or.inl hc0)]
  · unfold channelStats maskStd maskMean
    rw [hc0, hs0, hq0, hc1, hs1, hq1]
    norm_num

/-- C3 (amended): with the fixed 100-point phase grid the in-transit set
always has 30 samples and the out-of-transit set 50, so the degenerate
empty-set case can never arise in the pipeline. -/
theorem masks_never_empty :
    maskCount inTransitMask = 30 ∧ maskCount outTransitMask = 50 := by
  have h1 : inTransitMask = fun i => decide (35 ≤ i ∧ i ≤ 64) := by
    funext i
    unfold inTransitMask
    rw [decide_eq_decide, abs_lt]
    unfold phase transitDuration
    constructor
    · rintro ⟨ha, hb⟩
      constructor
      · by_contra hlt
        push_neg at hlt
        have : (i:ℚ) ≤ 34 := by exact_mod_cast Nat.le_of_lt_succ hlt
        linarith
      · by_contra hgt
        push_neg at hgt
        have : (65:ℚ) ≤ i := by exact_mod_cast hgt
        linarith
    · rintro ⟨ha, hb⟩
      have ha' : (35:ℚ) ≤ i := by exact_mod_cast ha
      have hb' : (i:ℚ) ≤ 64 := by exact_mod_cast hb
      constructor <;> linarith
  have h2 : outTransitMask = fun i => decide (i ≤ 24 ∨ 75 ≤ i) := by
    funext i
    unfold outTransitMask
    rw [decide_eq_decide]
    show transitDuration / 2 + 0.01 < |phase i| ↔ _
    rw [lt_abs]
    unfold phase transitDuration
    constructor
    · rintro (ha | hb)
      · right
        by_contra hlt
        push_neg at hlt
        have : (i:ℚ) ≤ 74 := by exact_mod_cast Nat.le_of_lt_succ hlt
        linarith
      · left
        by_contra hgt
        push_neg at hgt
        have : (25:ℚ) ≤ i := by exact_mod_cast hgt
        linarith
    · rintro (ha | hb)
      · have : (i:ℚ) ≤ 24 := by exact_mod_cast ha
        right
        linarith
      · have : (75:ℚ) ≤ i := by exact_mod_cast hb
        left
        linarith
  rw [h1, h2]
  constructor <;> decide

/-! ## Claim C10: unparseable `bin_size` query parameter -/

/-- C10: when `parseInt` of the `bin_size` parameter (after the `|| "20"`
fallback for the falsy empty string) yields `NaN`, the
`Math.min(100, Math.max(5, …))` clamp propagates `NaN` instead of
confining it, `nBins = Math.floor(200/NaN)` is `NaN`, every loop bounded
by it runs zero times so all binned outputs are empty, and each of the
100 light-curve entries is `0 / NaN = NaN`. -/
theorem nan_bin_size (s0 : ℤ) (p : String) (h : jsParseInt (binSizeParam p) = none) :
    effBinSize p = none ∧
    nBinsJS p = none ∧
    jsIterations (nBinsJS p) = 0 ∧
    wavelengthsBinnedJS p = [] ∧
    transitDepthBinnedJS s0 p = [] ∧
    transitDepthErrBinnedJS s0 p = [] ∧
    (∀ i, fluxBinnedRowJS s0 p i = []) ∧
    (lightcurveFluxJS s0 p).length = 100 ∧
    (∀ x ∈ lightcurveFluxJS s0 p, x = none) := by
  have h1 : effBinSize p = none := by
    unfold effBinSize
    rw [h]
    rfl
  have h2 : nBinsJS p = none := by
    unfold nBinsJS
    rw [h1]
    rfl
  have hit : jsIterations (nBinsJS p) = 0 := by rw [h2]; rfl
  have hloop : ∀ {α : Type} (body : ℕ → α), jsLoop (nBinsJS p) body = [] := by
    intro α body
    unfold jsLoop
    rw [hit]
    rfl
  refine ⟨h1, h2, hit, hloop _, hloop _, hloop _, fun i => hloop _, ?_, ?_⟩
  · unfold lightcurveFluxJS
    simp [nTimes]
  · intro x hx
    unfold lightcurveFluxJS at hx
    obtain ⟨i, -, rfl⟩ := List.mem_map.1 hx
    rw [h2]
    rfl

theorem nan_bin_size_witness :
    (effBinSize "abc" = none ∧ (lightcurveFluxJS 0 "abc").length = 100) ∧
    effBinSize "0x" = none :=
  ⟨⟨(nan_bin_size 0 "abc" (by decide)).1,
    (nan_bin_size 0 "abc" (by decide)).2.2.2.2.2.2.2.1⟩,
   (nan_bin_size 0 "0x" (by decide)).1⟩

end Glimpse

